import Mathlib

/-!
A shallow embedding of the telemetry-correlation core of the handover
dataset generator (`scratch/handover-simulation.cc`).

The global `std::map` tables of the program become total functions
`Nat → Option _`; each event handler becomes a pure function from the
current state and the notification payload to the successor state
together with the list of rows it appends to the event log; IEEE
doubles become exact rationals.  The host simulator delivers the
notifications and is not embedded; `g_logger` is modelled as always
present, since `main` constructs it before any trace is connected.
-/

/-- A 2D position as stored in `ueLastPosition` (the z coordinate of an
ns-3 `Vector` is never read by the logging core). -/
structure Vec2 where
  x : ℚ
  y : ℚ
  deriving DecidableEq, Repr

/-- Assignment `m[k] = v` on a `std::map`, embedded as a pointwise update
of a partial function. -/
def mapInsert {α : Type} (m : Nat → Option α) (k : Nat) (v : α) : Nat → Option α :=
  fun j => if j = k then some v else m j

/-- The global mutable maps of the program (file scope, lines 36-45):
per-UE serving cell, position, speed, throughput and link quality, and
the per-cell latest PHY-trace RSRP and SINR.  There is no per-cell RSRQ
map in the program. -/
structure SimState where
  ueCurrentCell : Nat → Option Nat
  ueLastPosition : Nat → Option Vec2
  ueLastSpeed : Nat → Option ℚ
  ueThroughputDl : Nat → Option ℚ
  ueThroughputUl : Nat → Option ℚ
  ueLastRsrp : Nat → Option ℚ
  ueLastRsrq : Nat → Option ℚ
  ueLastSinr : Nat → Option ℚ
  cellRsrp : Nat → Option ℚ
  cellSinr : Nat → Option ℚ

/-- The state at program start: every map is empty. -/
def initState : SimState where
  ueCurrentCell := fun _ => none
  ueLastPosition := fun _ => none
  ueLastSpeed := fun _ => none
  ueThroughputDl := fun _ => none
  ueThroughputUl := fun _ => none
  ueLastRsrp := fun _ => none
  ueLastRsrq := fun _ => none
  ueLastSinr := fun _ => none
  cellRsrp := fun _ => none
  cellSinr := fun _ => none

/-- The last CSV column of a row in `handover_dataset.csv`. -/
inductive RecordType where
  | HANDOVER
  | MEASUREMENT
  deriving DecidableEq, Repr

/-- One row of the event log.  A column written as the empty string by
the program is `none` here. -/
structure EventRecord where
  time : ℚ
  ueId : Nat
  oldCellId : Nat
  newCellId : Nat
  rsrpOld : Option ℚ
  rsrpNew : Option ℚ
  rsrqOld : Option ℚ
  rsrqNew : Option ℚ
  sinrOld : Option ℚ
  sinrNew : Option ℚ
  throughputDl : ℚ
  throughputUl : ℚ
  x : ℚ
  y : ℚ
  speed : ℚ
  recordType : RecordType
  deriving DecidableEq, Repr

/-- `HandoverDataLogger::LogHandover` (lines 81-94): a HANDOVER row with
every quality column populated. -/
def LogHandover (time : ℚ) (ueId oldCellId newCellId : Nat)
    (rsrpOld rsrpNew rsrqOld rsrqNew sinrOld sinrNew throughputDl throughputUl x y speed : ℚ) :
    EventRecord :=
  { time := time, ueId := ueId, oldCellId := oldCellId, newCellId := newCellId,
    rsrpOld := some rsrpOld, rsrpNew := some rsrpNew,
    rsrqOld := some rsrqOld, rsrqNew := some rsrqNew,
    sinrOld := some sinrOld, sinrNew := some sinrNew,
    throughputDl := throughputDl, throughputUl := throughputUl,
    x := x, y := y, speed := speed, recordType := RecordType.HANDOVER }

/-- `HandoverDataLogger::LogMeasurement` (lines 96-108): a MEASUREMENT
row that duplicates the serving cell into the old and new cell columns,
leaves the three old quality columns empty and fills only the new
ones. -/
def LogMeasurement (time : ℚ) (ueId cellId : Nat)
    (rsrp rsrq sinr x y speed throughputDl throughputUl : ℚ) : EventRecord :=
  { time := time, ueId := ueId, oldCellId := cellId, newCellId := cellId,
    rsrpOld := none, rsrpNew := some rsrp,
    rsrqOld := none, rsrqNew := some rsrq,
    sinrOld := none, sinrNew := some sinr,
    throughputDl := throughputDl, throughputUl := throughputUl,
    x := x, y := y, speed := speed, recordType := RecordType.MEASUREMENT }

/-- `NotifyHandoverStartEnb` (lines 118-135): records the pre-handover
serving cell only when the UE is not tracked yet and emits nothing. -/
def NotifyHandoverStartEnb (st : SimState) (imsi cellid rnti targetCellId : Nat) :
    SimState × List EventRecord :=
  match st.ueCurrentCell imsi with
  | some _ => (st, [])
  | none => ({ st with ueCurrentCell := mapInsert st.ueCurrentCell imsi cellid }, [])

/-- `NotifyHandoverEndOkEnb` (lines 137-219): recovers the old cell from
`ueCurrentCell` (falling back to the reported cell), emits one HANDOVER
row whose old and new quality values coincide, and updates the serving
cell to the reported cell. -/
def NotifyHandoverEndOkEnb (st : SimState) (time : ℚ) (imsi cellid rnti : Nat) :
    SimState × List EventRecord :=
  ({ st with ueCurrentCell := mapInsert st.ueCurrentCell imsi cellid },
   [LogHandover time imsi ((st.ueCurrentCell imsi).getD cellid) cellid
      ((st.ueLastRsrp imsi).getD (-100)) ((st.ueLastRsrp imsi).getD (-100))
      ((st.ueLastRsrq imsi).getD (-20)) ((st.ueLastRsrq imsi).getD (-20))
      ((st.ueLastSinr imsi).getD 0) ((st.ueLastSinr imsi).getD 0)
      ((st.ueThroughputDl imsi).getD 0) ((st.ueThroughputUl imsi).getD 0)
      (((st.ueLastPosition imsi).getD ⟨0, 0⟩).x)
      (((st.ueLastPosition imsi).getD ⟨0, 0⟩).y)
      ((st.ueLastSpeed imsi).getD 0)])

/-- A demonstration state with UE 1 tracked at cell 7. -/
def hoDemoState : SimState :=
  { initState with ueCurrentCell := mapInsert initState.ueCurrentCell 1 7 }

/-- C1: a handover-complete notification for a UE whose tracked prior
cell is `c1`, reporting post-handover cell `c2`, appends exactly one
HANDOVER row with old cell `c1` and new cell `c2`, and afterwards the
tracked serving cell is `c2`. -/
theorem handoverComplete_tracked (st : SimState) (time : ℚ) (imsi c2 rnti c1 : Nat)
    (h : st.ueCurrentCell imsi = some c1) :
    ((NotifyHandoverEndOkEnb st time imsi c2 rnti).2).map
        (fun r => (r.oldCellId, r.newCellId, r.recordType)) = [(c1, c2, RecordType.HANDOVER)] ∧
    (NotifyHandoverEndOkEnb st time imsi c2 rnti).1.ueCurrentCell imsi = some c2 := by
  simp [NotifyHandoverEndOkEnb, LogHandover, h, mapInsert]

/-- Concrete instance of `handoverComplete_tracked`: UE 1 tracked at
cell 7 completes a handover to cell 9. -/
theorem handoverComplete_tracked_check :
    ((NotifyHandoverEndOkEnb hoDemoState 2 1 9 0).2).map
        (fun r => (r.oldCellId, r.newCellId, r.recordType)) = [(7, 9, RecordType.HANDOVER)] ∧
    (NotifyHandoverEndOkEnb hoDemoState 2 1 9 0).1.ueCurrentCell 1 = some 9 :=
  handoverComplete_tracked hoDemoState 2 1 9 0 7 rfl

/-- C2: a handover-complete notification for a UE with no tracked prior
cell appends exactly one HANDOVER row with old cell = new cell = the
reported cell (the degraded same-cell case); the handler is a total
function, so the run does not fail, and the serving cell is now
tracked. -/
theorem handoverComplete_untracked (st : SimState) (time : ℚ) (imsi c rnti : Nat)
    (h : st.ueCurrentCell imsi = none) :
    ((NotifyHandoverEndOkEnb st time imsi c rnti).2).map
        (fun r => (r.oldCellId, r.newCellId, r.recordType)) = [(c, c, RecordType.HANDOVER)] ∧
    (NotifyHandoverEndOkEnb st time imsi c rnti).1.ueCurrentCell imsi = some c := by
  simp [NotifyHandoverEndOkEnb, LogHandover, h, mapInsert]

/-- Concrete instance of `handoverComplete_untracked`: an untracked UE 3
reports completion at cell 5. -/
theorem handoverComplete_untracked_check :
    ((NotifyHandoverEndOkEnb initState 1 3 5 0).2).map
        (fun r => (r.oldCellId, r.newCellId, r.recordType)) = [(5, 5, RecordType.HANDOVER)] ∧
    (NotifyHandoverEndOkEnb initState 1 3 5 0).1.ueCurrentCell 3 = some 5 :=
  handoverComplete_untracked initState 1 3 5 0 rfl

/-- C7: a handover-start notification emits no row; it sets the tracked
serving cell to the reported source cell only when none is tracked,
leaves an already-tracked cell unchanged, leaves other UEs and every
other field of the state unchanged. -/
theorem handoverStart_first_seen (st : SimState) (imsi cellid rnti targetCellId : Nat) :
    (NotifyHandoverStartEnb st imsi cellid rnti targetCellId).2 = [] ∧
    (st.ueCurrentCell imsi = none →
      (NotifyHandoverStartEnb st imsi cellid rnti targetCellId).1.ueCurrentCell imsi
        = some cellid) ∧
    (∀ c, st.ueCurrentCell imsi = some c →
      (NotifyHandoverStartEnb st imsi cellid rnti targetCellId).1.ueCurrentCell imsi = some c) ∧
    (∀ j, j ≠ imsi →
      (NotifyHandoverStartEnb st imsi cellid rnti targetCellId).1.ueCurrentCell j
        = st.ueCurrentCell j) ∧
    (NotifyHandoverStartEnb st imsi cellid rnti targetCellId).1.ueLastPosition
      = st.ueLastPosition ∧
    (NotifyHandoverStartEnb st imsi cellid rnti targetCellId).1.ueLastSpeed = st.ueLastSpeed ∧
    (NotifyHandoverStartEnb st imsi cellid rnti targetCellId).1.ueThroughputDl
      = st.ueThroughputDl ∧
    (NotifyHandoverStartEnb st imsi cellid rnti targetCellId).1.ueThroughputUl
      = st.ueThroughputUl ∧
    (NotifyHandoverStartEnb st imsi cellid rnti targetCellId).1.ueLastRsrp = st.ueLastRsrp ∧
    (NotifyHandoverStartEnb st imsi cellid rnti targetCellId).1.ueLastRsrq = st.ueLastRsrq ∧
    (NotifyHandoverStartEnb st imsi cellid rnti targetCellId).1.ueLastSinr = st.ueLastSinr ∧
    (NotifyHandoverStartEnb st imsi cellid rnti targetCellId).1.cellRsrp = st.cellRsrp ∧
    (NotifyHandoverStartEnb st imsi cellid rnti targetCellId).1.cellSinr = st.cellSinr := by
  cases h : st.ueCurrentCell imsi with
  | none =>
      refine ⟨?_, ?_, ?_, ?_, ?_, ?_, ?_, ?_, ?_, ?_, ?_, ?_, ?_⟩ <;>
        simp [NotifyHandoverStartEnb, h, mapInsert]
      intro j hj
      simp [hj]
  | some c =>
      refine ⟨?_, ?_, ?_, ?_, ?_, ?_, ?_, ?_, ?_, ?_, ?_, ?_, ?_⟩ <;>
        simp [NotifyHandoverStartEnb, h, mapInsert]

/-- Concrete instance of `handoverStart_first_seen`: the frame part for
UE 2 in the initial state, plus the first-seen update. -/
theorem handoverStart_first_seen_check :
    (NotifyHandoverStartEnb initState 2 4 3 6).2 = [] ∧
    (NotifyHandoverStartEnb initState 2 4 3 6).1.ueCurrentCell 2 = some 4 :=
  ⟨(handoverStart_first_seen initState 2 4 3 6).1,
   (handoverStart_first_seen initState 2 4 3 6).2.1 rfl⟩

/-- `NotifyConnectionEstablishedUe` (lines 221-229): initializes the
serving cell on attach. -/
def NotifyConnectionEstablishedUe (st : SimState) (imsi cellid rnti : Nat) : SimState :=
  { st with ueCurrentCell := mapInsert st.ueCurrentCell imsi cellid }

/-- `UePhyRsrpSinr` (lines 234-253): the cell-scoped PHY trace stores
the latest RSRP and SINR by cell id and touches no per-UE map. -/
def UePhyRsrpSinr (st : SimState) (cellId rnti : Nat) (rsrp sinr : ℚ) : SimState :=
  { st with cellRsrp := mapInsert st.cellRsrp cellId rsrp,
            cellSinr := mapInsert st.cellSinr cellId sinr }

/-- RSRP decoding of `NotifyRecvMeasurementReport` (lines 278-279):
`rsrp = -140.0 + (double) rsrpEncoded` in dBm. -/
def decodeRsrp (v : Nat) : ℚ := -140 + (v : ℚ)

/-- RSRQ decoding of `NotifyRecvMeasurementReport` (lines 284-285):
`rsrq = -19.5 + (double) rsrqEncoded / 2.0` in dB. -/
def decodeRsrq (v : Nat) : ℚ := -19.5 + (v : ℚ) / 2

/-- The RSRP resolution step of `LogEverySecond` (lines 516-530): the
UE-specific value if present, else the cell PHY-trace value if the cell
id is positive and present (cached back into the UE map), else the
default of -100. -/
def resolveRsrpCaching (st : SimState) (imsi cellId : Nat) : ℚ × SimState :=
  match st.ueLastRsrp imsi with
  | some v => (v, st)
  | none =>
      if 0 < cellId then
        match st.cellRsrp cellId with
        | some v => (v, { st with ueLastRsrp := mapInsert st.ueLastRsrp imsi v })
        | none => (-100, st)
      else (-100, st)

/-- The SINR resolution step shared by `NotifyRecvMeasurementReport`
(lines 289-299) and `LogEverySecond` (lines 537-546): the UE-specific
value if present, else the cell PHY-trace value if the cell id is
positive and present (cached back into the UE map), else 0. -/
def resolveSinrCaching (st : SimState) (imsi cellId : Nat) : ℚ × SimState :=
  match st.ueLastSinr imsi with
  | some v => (v, st)
  | none =>
      if 0 < cellId then
        match st.cellSinr cellId with
        | some v => (v, { st with ueLastSinr := mapInsert st.ueLastSinr imsi v })
        | none => (0, st)
      else (0, st)

/-- The RSRQ resolution step of `LogEverySecond` (lines 532-535): the
UE-specific value if present, else the default of -20.  The program
keeps no cell-scoped RSRQ, so there is no cell fallback step. -/
def resolveRsrq (st : SimState) (imsi : Nat) : ℚ :=
  (st.ueLastRsrq imsi).getD (-20)

/-- `NotifyRecvMeasurementReport` (lines 258-328): decodes the coded
RSRP and RSRQ of the report, stores them for the UE, resolves SINR
(UE-specific, else cell PHY trace with caching, else 0) and emits one
MEASUREMENT row. -/
def NotifyRecvMeasurementReport (st : SimState) (time : ℚ) (imsi cellId rnti : Nat)
    (rsrpResult rsrqResult : Nat) : SimState × List EventRecord :=
  let st2 : SimState :=
    { st with ueLastRsrp := mapInsert st.ueLastRsrp imsi (decodeRsrp rsrpResult),
              ueLastRsrq := mapInsert st.ueLastRsrq imsi (decodeRsrq rsrqResult) }
  let ps := resolveSinrCaching st2 imsi cellId
  (ps.2,
   [LogMeasurement time imsi cellId (decodeRsrp rsrpResult) (decodeRsrq rsrqResult) ps.1
      (((ps.2.ueLastPosition imsi).getD ⟨0, 0⟩).x)
      (((ps.2.ueLastPosition imsi).getD ⟨0, 0⟩).y)
      ((ps.2.ueLastSpeed imsi).getD 0)
      ((ps.2.ueThroughputDl imsi).getD 0) ((ps.2.ueThroughputUl imsi).getD 0)])

/-- C3: the measurement-report handler decodes RSRP as `v - 140` dBm and
RSRQ as `-19.5 + v/2` dB into both the emitted row and the UE state;
`decode 0` gives -140 dBm and -19.5 dB, `decode 255` gives 115 dBm and
108 dB, and both decodings are strictly increasing in the code. -/
theorem measurementReport_decode :
    (∀ (st : SimState) (time : ℚ) (imsi cellId rnti v w : Nat),
      ((NotifyRecvMeasurementReport st time imsi cellId rnti v w).2).map
          (fun r => (r.rsrpNew, r.rsrqNew))
        = [(some (decodeRsrp v), some (decodeRsrq w))] ∧
      (NotifyRecvMeasurementReport st time imsi cellId rnti v w).1.ueLastRsrp imsi
        = some (decodeRsrp v) ∧
      (NotifyRecvMeasurementReport st time imsi cellId rnti v w).1.ueLastRsrq imsi
        = some (decodeRsrq w)) ∧
    decodeRsrp 0 = -140 ∧ decodeRsrq 0 = -19.5 ∧
    decodeRsrp 255 = 115 ∧ decodeRsrq 255 = 108 ∧
    (∀ a b : Nat, a < b → decodeRsrp a < decodeRsrp b ∧ decodeRsrq a < decodeRsrq b) := by
  refine ⟨?_, by norm_num [decodeRsrp], by norm_num [decodeRsrq],
    by norm_num [decodeRsrp], by norm_num [decodeRsrq], ?_⟩
  · intro st time imsi cellId rnti v w
    have hsinr : ∀ s : SimState, (resolveSinrCaching s imsi cellId).2.ueLastRsrp
        = s.ueLastRsrp ∧ (resolveSinrCaching s imsi cellId).2.ueLastRsrq = s.ueLastRsrq := by
      intro s
      unfold resolveSinrCaching
      cases s.ueLastSinr imsi <;> simp
      split <;> [skip; simp]
      cases s.cellSinr cellId <;> simp
    refine ⟨?_, ?_, ?_⟩
    · simp [NotifyRecvMeasurementReport, LogMeasurement]
    · rw [NotifyRecvMeasurementReport, (hsinr _).1]
      simp [mapInsert]
    · rw [NotifyRecvMeasurementReport, (hsinr _).2]
      simp [mapInsert]
  · intro a b hab
    have h : (a : ℚ) < (b : ℚ) := by exact_mod_cast hab
    constructor
    · simp only [decodeRsrp]
      linarith
    · simp only [decodeRsrq]
      linarith

/-- Concrete instance of `measurementReport_decode`: code 40 decodes to
-100 dBm, code 10 to -14.5 dB, and the decodings grow from 0 to 255. -/
theorem measurementReport_decode_check :
    decodeRsrp 0 < decodeRsrp 255 ∧ decodeRsrq 0 < decodeRsrq 255 :=
  measurementReport_decode.2.2.2.2.2 0 255 (by decide)

/-- A point-in-time read of every field the program tracks for one UE,
with the defaults the handlers use: the serving cell read of
`LogEverySecond` (lines 508-512), the quality resolution of lines
514-546 (value components only), and the throughput, position and speed
defaults shared with `NotifyHandoverEndOkEnb` (lines 163-208). -/
structure Snapshot where
  cellId : Nat
  rsrp : ℚ
  rsrq : ℚ
  sinr : ℚ
  throughputDl : ℚ
  throughputUl : ℚ
  x : ℚ
  y : ℚ
  speed : ℚ
  deriving DecidableEq, Repr

/-- The snapshot read, assembled exactly from the lookups the handlers
perform. -/
def snapshot (st : SimState) (imsi : Nat) : Snapshot :=
  { cellId := (st.ueCurrentCell imsi).getD 0,
    rsrp := (resolveRsrpCaching st imsi ((st.ueCurrentCell imsi).getD 0)).1,
    rsrq := resolveRsrq st imsi,
    sinr := (resolveSinrCaching st imsi ((st.ueCurrentCell imsi).getD 0)).1,
    throughputDl := (st.ueThroughputDl imsi).getD 0,
    throughputUl := (st.ueThroughputUl imsi).getD 0,
    x := ((st.ueLastPosition imsi).getD ⟨0, 0⟩).x,
    y := ((st.ueLastPosition imsi).getD ⟨0, 0⟩).y,
    speed := (st.ueLastSpeed imsi).getD 0 }

/-- C4: for a UE none of whose fields has ever been observed, the
snapshot is exactly the documented default tuple: cell 0, RSRP -100,
RSRQ -20, SINR 0, zero throughput, position (0,0), speed 0 — whatever
the cell maps contain, since the cell fallback requires a positive
serving cell id. -/
theorem snapshot_defaults (st : SimState) (imsi : Nat)
    (hcell : st.ueCurrentCell imsi = none)
    (hrsrp : st.ueLastRsrp imsi = none)
    (hrsrq : st.ueLastRsrq imsi = none)
    (hsinr : st.ueLastSinr imsi = none)
    (hdl : st.ueThroughputDl imsi = none)
    (hul : st.ueThroughputUl imsi = none)
    (hpos : st.ueLastPosition imsi = none)
    (hspeed : st.ueLastSpeed imsi = none) :
    snapshot st imsi = ⟨0, -100, -20, 0, 0, 0, 0, 0, 0⟩ := by
  simp [snapshot, resolveRsrpCaching, resolveSinrCaching, resolveRsrq,
    hcell, hrsrp, hrsrq, hsinr, hdl, hul, hpos, hspeed]

/-- Concrete instance of `snapshot_defaults`: UE 1 in the initial
state. -/
theorem snapshot_defaults_check :
    snapshot initState 1 = ⟨0, -100, -20, 0, 0, 0, 0, 0, 0⟩ :=
  snapshot_defaults initState 1 rfl rfl rfl rfl rfl rfl rfl rfl

/-- The resolution order the specification describes: UE-specific value
if present, else the cell broadcast value if the serving cell is known
(positive id) and has one, else the hardcoded default. -/
def fallbackChain (entityVal : Option ℚ) (cellId : Nat) (cellVal : Option ℚ) (dflt : ℚ) : ℚ :=
  match entityVal with
  | some v => v
  | none =>
      if 0 < cellId then
        match cellVal with
        | some v => v
        | none => dflt
      else dflt

/-- C5: the three quality metrics of the snapshot tick are resolved by
the fallback chain UE-specific → cell broadcast → default, with
defaults -100 (RSRP), -20 (RSRQ) and 0 (SINR).  The program maintains
no cell-scoped RSRQ (no handler ever stores one), so the cell broadcast
value for RSRQ is always absent and its middle step never fires. -/
theorem snapshot_fallback_chain (st : SimState) (imsi cellId : Nat) :
    (resolveRsrpCaching st imsi cellId).1
      = fallbackChain (st.ueLastRsrp imsi) cellId (st.cellRsrp cellId) (-100) ∧
    (resolveSinrCaching st imsi cellId).1
      = fallbackChain (st.ueLastSinr imsi) cellId (st.cellSinr cellId) 0 ∧
    resolveRsrq st imsi = fallbackChain (st.ueLastRsrq imsi) cellId none (-20) := by
  refine ⟨?_, ?_, ?_⟩
  · unfold resolveRsrpCaching fallbackChain
    cases st.ueLastRsrp imsi <;> simp
    split <;> [cases st.cellRsrp cellId <;> simp; simp]
  · unfold resolveSinrCaching fallbackChain
    cases st.ueLastSinr imsi <;> simp
    split <;> [cases st.cellSinr cellId <;> simp; simp]
  · unfold resolveRsrq fallbackChain
    cases st.ueLastRsrq imsi <;> simp

/-- C10: when a quality metric for a UE is resolved through the cell
broadcast fallback, the resolved value is written into the UE-specific
map; any UE-specific value then decides every later resolution no
matter what the cell maps hold, and the PHY trace (the only writer of
the cell maps) never touches the UE-specific maps.  The same holds for
the SINR fallback inside the measurement-report handler. -/
theorem cell_fallback_caches (imsi cellId : Nat) (v : ℚ) :
    (∀ st : SimState, st.ueLastRsrp imsi = none → 0 < cellId →
      st.cellRsrp cellId = some v →
      (resolveRsrpCaching st imsi cellId).1 = v ∧
      (resolveRsrpCaching st imsi cellId).2.ueLastRsrp imsi = some v) ∧
    (∀ st : SimState, st.ueLastSinr imsi = none → 0 < cellId →
      st.cellSinr cellId = some v →
      (resolveSinrCaching st imsi cellId).1 = v ∧
      (resolveSinrCaching st imsi cellId).2.ueLastSinr imsi = some v) ∧
    (∀ st : SimState, st.ueLastRsrp imsi = some v →
      ∀ c, (resolveRsrpCaching st imsi c).1 = v) ∧
    (∀ st : SimState, st.ueLastSinr imsi = some v →
      ∀ c, (resolveSinrCaching st imsi c).1 = v) ∧
    (∀ (st : SimState) (c r : Nat) (p q : ℚ),
      (UePhyRsrpSinr st c r p q).ueLastRsrp = st.ueLastRsrp ∧
      (UePhyRsrpSinr st c r p q).ueLastSinr = st.ueLastSinr) ∧
    (∀ (st : SimState) (time : ℚ) (rnti a b : Nat),
      st.ueLastSinr imsi = none → 0 < cellId → st.cellSinr cellId = some v →
      (NotifyRecvMeasurementReport st time imsi cellId rnti a b).1.ueLastSinr imsi
        = some v) := by
  refine ⟨?_, ?_, ?_, ?_, ?_, ?_⟩
  · intro st h1 h2 h3
    simp [resolveRsrpCaching, h1, h2, h3, mapInsert]
  · intro st h1 h2 h3
    simp [resolveSinrCaching, h1, h2, h3, mapInsert]
  · intro st h c
    simp [resolveRsrpCaching, h]
  · intro st h c
    simp [resolveSinrCaching, h]
  · intro st c r p q
    exact ⟨rfl, rfl⟩
  · intro st time rnti a b h1 h2 h3
    simp [NotifyRecvMeasurementReport, resolveSinrCaching, h1, h2, h3, mapInsert]

/-- A demonstration state whose cell 2 has broadcast RSRP 5 and SINR 3,
with no UE-specific values. -/
def cellDemoState : SimState :=
  UePhyRsrpSinr initState 2 0 5 3

/-- Concrete instance of `cell_fallback_caches`: UE 1 resolving against
cell 2 in `cellDemoState` picks up RSRP 5 and caches it. -/
theorem cell_fallback_caches_check :
    (resolveRsrpCaching cellDemoState 1 2).1 = 5 ∧
    (resolveRsrpCaching cellDemoState 1 2).2.ueLastRsrp 1 = some 5 :=
  (cell_fallback_caches 1 2 5).1 cellDemoState rfl (by decide) rfl

/-- One UE node as the snapshot tick sees it: its IMSI, the position
read from the mobility model, the speed the code derives as the
Euclidean norm of the velocity vector (taken here as the derived
scalar, since the square root has no exact rational form and no claim
depends on it), and whether the node has a mobility model at all. -/
structure UeNodeInfo where
  imsi : Nat
  pos : Vec2
  speed : ℚ
  hasMobility : Bool

/-- The per-node body of `LogEverySecond` (lines 472-564): nodes without
a mobility model are skipped; otherwise the position and speed are
stored, the serving cell is read (default 0), RSRP, RSRQ and SINR are
resolved with their fallback chains, and one MEASUREMENT row is
emitted. -/
def LogEverySecondUe (time : ℚ) (st : SimState) (node : UeNodeInfo) :
    SimState × List EventRecord :=
  if node.hasMobility then
    let st1 : SimState :=
      { st with ueLastPosition := mapInsert st.ueLastPosition node.imsi node.pos,
                ueLastSpeed := mapInsert st.ueLastSpeed node.imsi node.speed }
    let cellId := (st1.ueCurrentCell node.imsi).getD 0
    let pr := resolveRsrpCaching st1 node.imsi cellId
    let ps := resolveSinrCaching pr.2 node.imsi cellId
    (ps.2,
     [LogMeasurement time node.imsi cellId pr.1 (resolveRsrq pr.2 node.imsi) ps.1
        node.pos.x node.pos.y node.speed
        ((ps.2.ueThroughputDl node.imsi).getD 0) ((ps.2.ueThroughputUl node.imsi).getD 0)])
  else (st, [])

/-- `LogEverySecond` (lines 468-568): the snapshot tick walks the UE
nodes in order, threading the state and concatenating the emitted
rows.  The self-rescheduling call at line 567 re-arms the same tick and
is represented by iterating `runSnapshotTicks` below. -/
def LogEverySecond (time : ℚ) : SimState → List UeNodeInfo → SimState × List EventRecord
  | st, [] => (st, [])
  | st, node :: rest =>
      let p := LogEverySecondUe time st node
      let q := LogEverySecond time p.1 rest
      (q.1, p.2 ++ q.2)

/-- The self-rescheduled snapshot ticks (lines 566-567 and 1066): one
`LogEverySecond` pass per scheduled time, threading the state. -/
def runSnapshotTicks (nodes : List UeNodeInfo) : SimState → List ℚ → SimState × List EventRecord
  | st, [] => (st, [])
  | st, t :: ts =>
      let p := LogEverySecond t st nodes
      let q := runSnapshotTicks nodes p.1 ts
      (q.1, p.2 ++ q.2)

/-- The shape the specification requires of a MEASUREMENT row: old cell
equals new cell, the old quality columns are empty and the new ones are
populated. -/
def measurementShaped (r : EventRecord) : Prop :=
  r.recordType = RecordType.MEASUREMENT ∧ r.oldCellId = r.newCellId ∧
  r.rsrpOld = none ∧ r.rsrqOld = none ∧ r.sinrOld = none ∧
  (∃ a, r.rsrpNew = some a) ∧ (∃ b, r.rsrqNew = some b) ∧ (∃ c, r.sinrNew = some c)

lemma logMeasurement_shaped (time : ℚ) (ueId cellId : Nat)
    (rsrp rsrq sinr x y speed tdl tul : ℚ) :
    measurementShaped (LogMeasurement time ueId cellId rsrp rsrq sinr x y speed tdl tul) := by
  simp [measurementShaped, LogMeasurement]

lemma logEverySecondUe_shape (time : ℚ) (st : SimState) (node : UeNodeInfo) :
    ∀ r ∈ (LogEverySecondUe time st node).2, measurementShaped r := by
  cases h : node.hasMobility <;> simp [LogEverySecondUe, h]
  exact logMeasurement_shaped _ _ _ _ _ _ _ _ _ _ _

lemma logEverySecondUe_count (time : ℚ) (st : SimState) (node : UeNodeInfo)
    (h : node.hasMobility = true) :
    ((LogEverySecondUe time st node).2).length = 1 := by
  simp [LogEverySecondUe, h]

lemma logEverySecond_shape (time : ℚ) (st : SimState) (nodes : List UeNodeInfo) :
    ∀ r ∈ (LogEverySecond time st nodes).2, measurementShaped r := by
  induction nodes generalizing st with
  | nil => simp [LogEverySecond]
  | cons node rest ih =>
      intro r hr
      simp only [LogEverySecond, List.mem_append] at hr
      rcases hr with hr | hr
      · exact logEverySecondUe_shape time st node r hr
      · exact ih _ r hr

lemma logEverySecond_count (time : ℚ) (st : SimState) (nodes : List UeNodeInfo)
    (h : ∀ n ∈ nodes, n.hasMobility = true) :
    ((LogEverySecond time st nodes).2).length = nodes.length := by
  induction nodes generalizing st with
  | nil => simp [LogEverySecond]
  | cons node rest ih =>
      simp only [LogEverySecond, List.length_append, List.length_cons]
      rw [logEverySecondUe_count time st node (h node (by simp)),
        ih _ (fun n hn => h n (by simp [hn]))]
      omega

lemma runSnapshotTicks_count (nodes : List UeNodeInfo) (st : SimState) (ts : List ℚ)
    (h : ∀ n ∈ nodes, n.hasMobility = true) :
    ((runSnapshotTicks nodes st ts).2).length = ts.length * nodes.length := by
  induction ts generalizing st with
  | nil => simp [runSnapshotTicks]
  | cons t rest ih =>
      simp only [runSnapshotTicks, List.length_append, List.length_cons]
      rw [logEverySecond_count t st nodes h, ih]
      ring

/-- C6: every row `LogMeasurement` ever writes has old cell = new cell =
the serving cell passed in, empty old quality columns and populated new
ones; every row a snapshot tick emits has that shape; a tick over nodes
that all have mobility emits exactly one row per node; and three ticks
(t = 1, 2, 3) over 3 such nodes emit exactly 9 rows. -/
theorem snapshot_tick_rows :
    (∀ (time : ℚ) (ueId cellId : Nat) (rsrp rsrq sinr x y speed tdl tul : ℚ),
      (LogMeasurement time ueId cellId rsrp rsrq sinr x y speed tdl tul).oldCellId = cellId ∧
      (LogMeasurement time ueId cellId rsrp rsrq sinr x y speed tdl tul).newCellId = cellId ∧
      measurementShaped (LogMeasurement time ueId cellId rsrp rsrq sinr x y speed tdl tul)) ∧
    (∀ (time : ℚ) (st : SimState) (nodes : List UeNodeInfo),
      (∀ r ∈ (LogEverySecond time st nodes).2, measurementShaped r) ∧
      ((∀ n ∈ nodes, n.hasMobility = true) →
        ((LogEverySecond time st nodes).2).length = nodes.length)) ∧
    (∀ (st : SimState) (nodes : List UeNodeInfo),
      nodes.length = 3 → (∀ n ∈ nodes, n.hasMobility = true) →
      ((runSnapshotTicks nodes st [1, 2, 3]).2).length = 9) := by
  refine ⟨?_, ?_, ?_⟩
  · intro time ueId cellId rsrp rsrq sinr x y speed tdl tul
    exact ⟨rfl, rfl, logMeasurement_shaped _ _ _ _ _ _ _ _ _ _ _⟩
  · intro time st nodes
    exact ⟨logEverySecond_shape time st nodes, logEverySecond_count time st nodes⟩
  · intro st nodes h3 hmob
    rw [runSnapshotTicks_count nodes st [1, 2, 3] hmob, h3]
    norm_num

/-- Three demonstration nodes with mobility. -/
def demoNodes : List UeNodeInfo :=
  [⟨1, ⟨0, 0⟩, 1, true⟩, ⟨2, ⟨10, 0⟩, 2, true⟩, ⟨3, ⟨0, 10⟩, 3, true⟩]

/-- Concrete instance of `snapshot_tick_rows`: 3 nodes over the ticks at
t = 1, 2, 3 give 9 rows. -/
theorem snapshot_tick_rows_check :
    ((runSnapshotTicks demoNodes initState [1, 2, 3]).2).length = 9 :=
  snapshot_tick_rows.2.2 initState demoNodes rfl (by decide)

/-- The address pair of a flow as `SampleThroughput` uses it
(`Ipv4FlowClassifier::FiveTuple`, only the two addresses are read);
addresses are abstracted to naturals. -/
structure FiveTuple where
  sourceAddress : Nat
  destinationAddress : Nat
  deriving DecidableEq, Repr

/-- The cumulative counters of one monitored flow that the periodic
sampler reads. -/
structure FlowStats where
  rxBytes : Nat
  txBytes : Nat
  deriving DecidableEq, Repr

/-- One entry of the flow-statistics container, already classified. -/
structure FlowEntry where
  tuple : FiveTuple
  stats : FlowStats
  deriving DecidableEq, Repr

/-- The per-flow rate formula of `SampleThroughput` (lines 434-435):
cumulative bytes times 8 over elapsed seconds times 10^6, in Mbps. -/
def flowRate (bytes : Nat) (t : ℚ) : ℚ :=
  (bytes : ℚ) * 8 / (t * 1000000)

/-- The `+=` accumulation into a `std::map` whose absent keys read as
zero. -/
def addTo (m : Nat → Option ℚ) (k : Nat) (v : ℚ) : Nat → Option ℚ :=
  mapInsert m k ((m k).getD 0 + v)

/-- The loop body of `SampleThroughput` (lines 428-451): when the
elapsed time is positive, the flow adds its rx-byte rate to the
downlink total of the entity owning the destination address and its
tx-byte rate to the uplink total of the entity owning the source
address. -/
def sampleFlow (t : ℚ) (ipToImsi : Nat → Option Nat)
    (acc : (Nat → Option ℚ) × (Nat → Option ℚ)) (f : FlowEntry) :
    (Nat → Option ℚ) × (Nat → Option ℚ) :=
  if 0 < t then
    (match ipToImsi f.tuple.destinationAddress with
     | some imsi => addTo acc.1 imsi (flowRate f.stats.rxBytes t)
     | none => acc.1,
     match ipToImsi f.tuple.sourceAddress with
     | some imsi => addTo acc.2 imsi (flowRate f.stats.txBytes t)
     | none => acc.2)
  else acc

/-- `SampleThroughput` (lines 392-465): accumulates per-entity downlink
and uplink totals over all flows, then overwrites the global throughput
maps at exactly the keys the totals hold. -/
def SampleThroughput (st : SimState) (ipToImsi : Nat → Option Nat)
    (flows : List FlowEntry) (currentTime : ℚ) : SimState :=
  let totals := flows.foldl (sampleFlow currentTime ipToImsi) (fun _ => none, fun _ => none)
  { st with
    ueThroughputDl := fun i =>
      match totals.1 i with
      | some v => some v
      | none => st.ueThroughputDl i,
    ueThroughputUl := fun i =>
      match totals.2 i with
      | some v => some v
      | none => st.ueThroughputUl i }

/-- C8: for elapsed time t > 0, a flow contributes
`bytes * 8 / (t * 10^6)` Mbps — received bytes to the downlink of the
entity at the destination address, transmitted bytes to the uplink of
the entity at the source address — and when the cumulative counter
grows linearly as `c * t` the computed rate is the constant
`c * 8 / 10^6` at every tick (a running average, not an interval
delta). -/
theorem sample_throughput_rate :
    (∀ (st : SimState) (ipToImsi : Nat → Option Nat) (f : FlowEntry) (t : ℚ) (e1 e2 : Nat),
      0 < t →
      ipToImsi f.tuple.destinationAddress = some e1 →
      ipToImsi f.tuple.sourceAddress = some e2 →
      (SampleThroughput st ipToImsi [f] t).ueThroughputDl e1
        = some (flowRate f.stats.rxBytes t) ∧
      (SampleThroughput st ipToImsi [f] t).ueThroughputUl e2
        = some (flowRate f.stats.txBytes t)) ∧
    (∀ (c t1 t2 : ℚ) (b1 b2 : Nat), 0 < t1 → 0 < t2 →
      (b1 : ℚ) = c * t1 → (b2 : ℚ) = c * t2 →
      flowRate b1 t1 = c * 8 / 1000000 ∧ flowRate b1 t1 = flowRate b2 t2) := by
  constructor
  · intro st ipToImsi f t e1 e2 ht h1 h2
    constructor <;>
      simp [SampleThroughput, sampleFlow, addTo, mapInsert, ht, h1, h2]
  · intro c t1 t2 b1 b2 ht1 ht2 hb1 hb2
    have ht1z : t1 ≠ 0 := ne_of_gt ht1
    have ht2z : t2 ≠ 0 := ne_of_gt ht2
    have e1 : flowRate b1 t1 = c * 8 / 1000000 := by
      rw [flowRate, hb1]
      field_simp
      ring
    have e2 : flowRate b2 t2 = c * 8 / 1000000 := by
      rw [flowRate, hb2]
      field_simp
      ring
    exact ⟨e1, e1.trans e2.symm⟩

/-- Concrete instance of `sample_throughput_rate`: a counter at 1000
bytes after 1 s and at 5000 bytes after 5 s (true rate 1000 B/s)
computes the same rate, 8/1000 Mbps, at both ticks. -/
theorem sample_throughput_rate_check :
    flowRate 1000 1 = 1000 * 8 / 1000000 ∧ flowRate 1000 1 = flowRate 5000 5 :=
  sample_throughput_rate.2 1000 1 5 1000 5000 (by norm_num) (by norm_num)
    (by norm_num) (by norm_num)

/-- The cumulative counters of one flow as read when writing
`flow_statistics.csv` at run end; `delaySum` and `jitterSum` are in
seconds. -/
structure FlowStatsFull where
  txPackets : Nat
  rxPackets : Nat
  lostPackets : Nat
  rxBytes : Nat
  txBytes : Nat
  delaySum : ℚ
  jitterSum : ℚ
  deriving DecidableEq, Repr

/-- The divisor of the delay-mean computation at line 1197:
`rxPackets`. -/
def delayMeanDivisor (s : FlowStatsFull) : ℚ := (s.rxPackets : ℚ)

/-- The divisor of the jitter-mean computation at line 1198:
`rxPackets - 1`. -/
def jitterMeanDivisor (s : FlowStatsFull) : ℚ := (s.rxPackets : ℚ) - 1

/-- The delay and jitter means of one row of `flow_statistics.csv`
(lines 1184-1199): both divisions run whenever `rxPackets > 0`.  In the
program they are IEEE double divisions, where a zero divisor yields an
infinite or NaN column value rather than a trap; here the rational
convention `x / 0 = 0` stands in, and the divisor functions expose the
exact divisors the code uses. -/
def flowDelayJitterMs (s : FlowStatsFull) : ℚ × ℚ :=
  if 0 < s.rxPackets then
    (s.delaySum / delayMeanDivisor s * 1000, s.jitterSum / jitterMeanDivisor s * 1000)
  else (0, 0)

/-- C9 fails on the code: for a flow with exactly one received packet
the guard `rxPackets > 0` admits the computation, the delay divisor is
1, but the jitter divisor `rxPackets - 1` is 0, so the jitter-mean
division divides by zero.  The concrete input: one flow with one
received packet and a 5 ms delay sum. -/
theorem jitter_divisor_zero_one_packet :
    0 < (FlowStatsFull.mk 2 1 1 1024 2048 (1/200) 0).rxPackets ∧
    delayMeanDivisor (FlowStatsFull.mk 2 1 1 1024 2048 (1/200) 0) = 1 ∧
    jitterMeanDivisor (FlowStatsFull.mk 2 1 1 1024 2048 (1/200) 0) = 0 := by
  refine ⟨by decide, by norm_num [delayMeanDivisor], by norm_num [jitterMeanDivisor]⟩
